import Mathlib

/-!
# Verification of the whatsmyway recommendation engine and location layer

Shallow embedding of `apps/api/app/services/recommendation_service.py`,
`apps/api/app/services/travel_service.py` and
`apps/api/app/services/location_service.py`.

Modelling conventions:
* Instants (`datetime`) are integers counting minutes in a fixed (naive UTC)
  reference; a calendar day is 1440 minutes, so
  `t.replace(hour=h, minute=0, second=0, microsecond=0)` is `t - t % 1440 + 60*h`
  (Python's `%` on ints has the same sign convention as `Int.emod`).
  All inputs are taken in the normalized reference, so `to_naive_utc` is the
  identity on the model.
* Python floats are modelled as exact rationals in the engine/service layer and
  as reals in the trigonometric travel estimator; `round(x, 1)` is
  round-half-to-even of `10*x` divided by 10, as in CPython.
* `sorted(..., key=...)` is a stable sort; a stable sort is extensionally
  unique, and is modelled by `List.insertionSort` with the non-strict key order.
* The engine ranks by the pair `(added_travel_min, start_at)` where the second
  component is the ISO-8601 rendering of the start instant; for a fixed format
  the lexicographic order of those strings agrees with the order of the
  instants, so the model compares the instants directly.
* The travel estimator used by the engine is a parameter `est`; the concrete
  analytic estimator of `travel_service.py` is modelled separately over ℝ.
-/

namespace WhatsMyWay

/-- `DAY_START_HOUR` from `recommendation_service.py`. -/
def DAY_START_HOUR : ℤ := 8

/-- `DAY_END_HOUR` from `recommendation_service.py`. -/
def DAY_END_HOUR : ℤ := 19

/-- `MAX_SUGGESTIONS` from `recommendation_service.py`. -/
def MAX_SUGGESTIONS : ℕ := 10

/-- Minutes in a calendar day. -/
def minutesPerDay : ℤ := 1440

/-- `time_service.to_naive_utc`: instants in the model are already in the
single normalized (naive UTC) reference, so normalization is the identity. -/
def to_naive_utc (value : ℤ) : ℤ := value

/-- `datetime.replace(hour=h, minute=0, second=0, microsecond=0)` at minute
granularity: the start of the instant's calendar day plus `h` hours. -/
def replaceHour (t h : ℤ) : ℤ := t - t % minutesPerDay + 60 * h

/-- `SalesEvent` (`app/models/event.py`), restricted to the fields the engine
reads: identifier, start/end instants and coordinates. -/
structure SalesEvent where
  id : String
  start_at : ℤ
  end_at : ℤ
  lat : ℚ
  lng : ℚ
  deriving DecidableEq, Repr

/-- `travel_service.Location` (a `lat`/`lng` pair), coordinates as rationals. -/
structure Location where
  lat : ℚ
  lng : ℚ
  deriving DecidableEq, Repr

/-- `CandidateWindow` (`recommendation_service.py`): a `start`/`end` pair. -/
structure CandidateWindow where
  start : ℤ
  «end» : ℤ
  deriving DecidableEq, Repr

/-- `RecommendationResult` (`recommendation_service.py`). `start_at`/`end_at`
are kept as instants (their ISO rendering is order-isomorphic). -/
structure RecommendationResult where
  start_at : ℤ
  end_at : ℤ
  before_event_id : Option String
  after_event_id : Option String
  added_travel_min : ℚ
  total_travel_min : ℚ
  explanation : String
  deriving DecidableEq, Repr

/-- Round-half-to-even to an integer, as CPython's `round` does on floats. -/
def roundHalfEven (x : ℚ) : ℤ :=
  if x - ⌊x⌋ < 1/2 then ⌊x⌋
  else if 1/2 < x - ⌊x⌋ then ⌊x⌋ + 1
  else if ⌊x⌋ % 2 = 0 then ⌊x⌋ else ⌊x⌋ + 1

/-- Python's `round(x, 1)`: round `10*x` half-to-even, then divide by 10. -/
def roundQ1 (x : ℚ) : ℚ := (roundHalfEven (10 * x) : ℚ) / 10

/-- The Python truthiness-based sentinel of the explanation f-string:
`value if value else sentinel` (both `None` and `""` are falsy). -/
def idOrSentinel (value : Option String) (sentinel : String) : String :=
  match value with
  | some s => if s = "" then sentinel else s
  | none => sentinel

/-- The explanation f-string of `recommend_slots` (the numeric rendering of
the added minutes abstracts CPython's float `repr`). -/
def explanationFor (before_event_id after_event_id : Option String) (added : ℚ) : String :=
  "Inserted between " ++ idOrSentinel before_event_id "START" ++ " and " ++
    idOrSentinel after_event_id "END" ++ " with +" ++ toString added ++ " min travel"

/-- `sorted(events, key=lambda event: event.start_at)`: the stable sort of the
events by start instant. -/
def sortByStart (events : List SalesEvent) : List SalesEvent :=
  events.insertionSort (fun a b => a.start_at ≤ b.start_at)

/-- The window-emitting loop of `_build_candidate_windows`: walk the (sorted)
events with a cursor, emit `[cursor, event.start)` whenever the cursor is
strictly before an event's start, and advance the cursor to the event's end
when that is larger.  Returns the emitted windows and the final cursor. -/
def gapWindows : ℤ → List SalesEvent → List CandidateWindow × ℤ
  | cursor, [] => ([], cursor)
  | cursor, event :: rest =>
    let event_start := to_naive_utc event.start_at
    let event_end := to_naive_utc event.end_at
    let emitted : List CandidateWindow :=
      if cursor < event_start then [⟨cursor, event_start⟩] else []
    let cursor' := if cursor < event_end then event_end else cursor
    let r := gapWindows cursor' rest
    (emitted ++ r.1, r.2)

/-- The working-hours trimming step of `_build_candidate_windows`: bound a
window to 08:00–19:00 of its start's calendar day, keeping it only when the
bounded interval is non-degenerate. -/
def trimWindow (window : CandidateWindow) : Option CandidateWindow :=
  let start := window.start
  let day_start := replaceHour start DAY_START_HOUR
  let day_end := replaceHour start DAY_END_HOUR
  let bounded_start := max start day_start
  let bounded_end := min window.«end» day_end
  if bounded_start < bounded_end then some ⟨bounded_start, bounded_end⟩ else none

/-- `_build_candidate_windows(date_start, date_end, events)`. -/
def build_candidate_windows (date_start date_end : ℤ) (events : List SalesEvent) :
    List CandidateWindow :=
  let cursor := to_naive_utc date_start
  let normalized_end := to_naive_utc date_end
  let sorted_events := sortByStart events
  let g := gapWindows cursor sorted_events
  let windows := g.1 ++ (if g.2 < normalized_end then [⟨g.2, normalized_end⟩] else [])
  windows.filterMap trimWindow

/-- One iteration of the `_neighbors_for_slot` loop body. -/
def neighborsStep (slot_start slot_end : ℤ)
    (acc : Option SalesEvent × Option SalesEvent) (event : SalesEvent) :
    Option SalesEvent × Option SalesEvent :=
  let event_start := to_naive_utc event.start_at
  let event_end := to_naive_utc event.end_at
  let previous_event := if event_end ≤ slot_start then some event else acc.1
  let next_event := if acc.2 = none ∧ slot_end ≤ event_start then some event else acc.2
  (previous_event, next_event)

/-- `_neighbors_for_slot(events, slot_start, slot_end)`: scan the events in the
given order, remembering the last one ending at or before the slot start and
the first one starting at or after the slot end. -/
def neighbors_for_slot (events : List SalesEvent) (slot_start slot_end : ℤ) :
    Option SalesEvent × Option SalesEvent :=
  events.foldl (neighborsStep slot_start slot_end) (none, none)

/-- The `prev_to_new` travel lookup of `recommend_slots`: travel from the
previous event's location to the new event's location, `0.0` when there is no
previous event. -/
def prev_to_new (est : Location → Location → ℚ) (events : List SalesEvent)
    (new_event : Location) (slot_start slot_end : ℤ) : ℚ :=
  match (neighbors_for_slot events slot_start slot_end).1 with
  | some previous_event =>
    est ⟨previous_event.lat, previous_event.lng⟩ ⟨new_event.lat, new_event.lng⟩
  | none => 0

/-- The `new_to_next` travel lookup of `recommend_slots`: travel from the new
event's location to the next event's location, `0.0` when there is no next
event. -/
def new_to_next (est : Location → Location → ℚ) (events : List SalesEvent)
    (new_event : Location) (slot_start slot_end : ℤ) : ℚ :=
  match (neighbors_for_slot events slot_start slot_end).2 with
  | some next_event => est ⟨new_event.lat, new_event.lng⟩ ⟨next_event.lat, next_event.lng⟩
  | none => 0

/-- The `prev_to_next` travel lookup of `recommend_slots`: direct travel from
the previous to the next event's location, `0.0` unless both neighbors exist. -/
def prev_to_next (est : Location → Location → ℚ) (events : List SalesEvent)
    (slot_start slot_end : ℤ) : ℚ :=
  match (neighbors_for_slot events slot_start slot_end).1,
      (neighbors_for_slot events slot_start slot_end).2 with
  | some previous_event, some next_event =>
    est ⟨previous_event.lat, previous_event.lng⟩ ⟨next_event.lat, next_event.lng⟩
  | _, _ => 0

/-- The suggestion built by `recommend_slots` for one accepted window. -/
def suggestionFor (est : Location → Location → ℚ) (events : List SalesEvent)
    (new_event : Location) (candidate_start candidate_end : ℤ) : RecommendationResult :=
  let added_travel := roundQ1 (max
    (prev_to_new est events new_event candidate_start candidate_end +
      new_to_next est events new_event candidate_start candidate_end -
      prev_to_next est events candidate_start candidate_end) 0)
  let total_travel := roundQ1
    (prev_to_new est events new_event candidate_start candidate_end +
      new_to_next est events new_event candidate_start candidate_end)
  let before_event_id := (neighbors_for_slot events candidate_start candidate_end).1.map SalesEvent.id
  let after_event_id := (neighbors_for_slot events candidate_start candidate_end).2.map SalesEvent.id
  { start_at := candidate_start
    end_at := candidate_end
    before_event_id := before_event_id
    after_event_id := after_event_id
    added_travel_min := added_travel
    total_travel_min := total_travel
    explanation := explanationFor before_event_id after_event_id added_travel }

/-- The ranking order of `recommend_slots`: the lexicographic order on the
`(added_travel_min, start_at)` sort key. -/
def rankLE (a b : RecommendationResult) : Prop :=
  a.added_travel_min < b.added_travel_min ∨
    (a.added_travel_min = b.added_travel_min ∧ a.start_at ≤ b.start_at)

instance : DecidableRel rankLE := fun a b => by unfold rankLE; infer_instance

/-- `recommend_slots(date_start, date_end, events, new_event, duration_minutes,
buffer_minutes)`, parameterized by the travel estimator `est` used for the
`estimate_travel_minutes` calls. -/
def recommend_slots (est : Location → Location → ℚ) (date_start date_end : ℤ)
    (events : List SalesEvent) (new_event : Location)
    (duration_minutes buffer_minutes : ℤ) : List RecommendationResult :=
  let duration := duration_minutes
  let buffer := buffer_minutes
  let windows := build_candidate_windows date_start date_end events
  let suggestions := windows.filterMap fun window =>
    let candidate_start := window.start + buffer
    let candidate_end := candidate_start + duration
    if candidate_end + buffer > window.«end» then none
    else some (suggestionFor est events new_event candidate_start candidate_end)
  let ranked := suggestions.insertionSort rankLE
  ranked.take MAX_SUGGESTIONS

/-! ## Location service layer (`location_service.py`) -/

/-- `location_service.GeoPoint` (frozen dataclass of coordinates). -/
structure GeoPoint where
  lat : ℚ
  lng : ℚ
  deriving DecidableEq, Repr

/-- `RoutingError` (the only exception the routing chain catches). -/
inductive RoutingError where
  | routingError (msg : String)
  deriving DecidableEq, Repr

/-- The error taxonomy of the geocoding path: `ValueError` from address
normalization, `GeocodingError` and `ProviderConfigurationError`. -/
inductive LocationError where
  | valueError (msg : String)
  | geocodingError (msg : String)
  | providerConfigurationError (msg : String)
  deriving DecidableEq, Repr

/-- `LocationService` with its injected providers; fallible provider calls
return `Except` in place of raised exceptions. -/
structure LocationService where
  geocoding_provider : String → Except LocationError GeoPoint
  routing_provider : GeoPoint → GeoPoint → Except RoutingError ℚ
  fallback_routing_provider : Option (GeoPoint → GeoPoint → Except RoutingError ℚ)

/-- `LocationService.estimate_travel_minutes`: call the primary routing
provider; on a `RoutingError`, re-raise when no fallback is configured,
otherwise return the fallback provider's result. -/
def LocationService.estimate_travel_minutes (self : LocationService)
    (origin destination : GeoPoint) : Except RoutingError ℚ :=
  match self.routing_provider origin destination with
  | Except.ok minutes => Except.ok minutes
  | Except.error exc =>
    match self.fallback_routing_provider with
    | none => Except.error exc
    | some fallback => fallback origin destination

/-- The whitespace characters of Python's argument-free `str.split`
(ASCII subset). -/
def isPySpace (c : Char) : Bool :=
  c == ' ' || c == '\t' || c == '\n' || c == '\r' || c == '\x0b' || c == '\x0c'

/-- Splitting on whitespace runs, discarding empty pieces, over the character
list (`cur` accumulates the current word, reversed). -/
def splitWsAux : List Char → List Char → List (List Char)
  | [], [] => []
  | [], cur => [cur.reverse]
  | c :: rest, cur =>
    if isPySpace c then
      (if cur = [] then splitWsAux rest [] else cur.reverse :: splitWsAux rest [])
    else splitWsAux rest (c :: cur)

/-- Python's argument-free `str.split`: whitespace runs separate words,
leading/trailing whitespace yields no empty words. -/
def split_whitespace (s : String) : List String :=
  (splitWsAux s.data []).map (fun cs => String.mk cs)

/-- `" ".join(...)`. -/
def join_with_single_spaces : List String → String
  | [] => ""
  | [piece] => piece
  | piece :: rest => piece ++ " " ++ join_with_single_spaces rest

/-- `LocationService.normalize_address`: collapse whitespace runs to single
spaces and trim; an empty result fails with `ValueError`. -/
def normalize_address (address : String) : Except LocationError String :=
  let normalized := join_with_single_spaces (split_whitespace address)
  if normalized = "" then
    Except.error (LocationError.valueError "address must be a non-empty string")
  else Except.ok normalized

instance {ε α : Type} [DecidableEq ε] [DecidableEq α] : DecidableEq (Except ε α) := fun a b =>
  match a, b with
  | Except.error e1, Except.error e2 =>
    if h : e1 = e2 then isTrue (by rw [h]) else isFalse (fun hc => h (Except.error.inj hc))
  | Except.error _, Except.ok _ => isFalse (fun hc => Except.noConfusion hc)
  | Except.ok _, Except.error _ => isFalse (fun hc => Except.noConfusion hc)
  | Except.ok v1, Except.ok v2 =>
    if h : v1 = v2 then isTrue (by rw [h]) else isFalse (fun hc => h (Except.ok.inj hc))

/-- The `maxsize` of the `functools.lru_cache` on `_cached_geocode`. -/
def GEOCODE_CACHE_MAXSIZE : ℕ := 2048

/-- `LocationService._cached_geocode` with the `functools.lru_cache(maxsize=2048)`
state made explicit: the cache is a most-recent-first association list threaded
through the call. A hit returns the cached point and refreshes its recency; a
miss delegates to the geocoding provider, and a successful lookup is inserted
at the front with eviction beyond capacity, while a provider error propagates
with the cache unchanged (`lru_cache` never caches exceptions). -/
def cached_geocode (provider : String → Except LocationError GeoPoint)
    (cache : List (String × GeoPoint)) (normalized_address : String) :
    Except LocationError (GeoPoint × List (String × GeoPoint)) :=
  match cache.find? (fun kv => kv.1 == normalized_address) with
  | some kv =>
    Except.ok (kv.2, (kv.1, kv.2) :: cache.eraseP (fun kv => kv.1 == normalized_address))
  | none =>
    match provider normalized_address with
    | Except.ok point =>
      Except.ok (point, ((normalized_address, point) :: cache).take GEOCODE_CACHE_MAXSIZE)
    | Except.error exc => Except.error exc

/-- `LocationService.geocode_address`: normalize, then look up memoized by the
normalized string. -/
def geocode_address (provider : String → Except LocationError GeoPoint)
    (cache : List (String × GeoPoint)) (address : String) :
    Except LocationError (GeoPoint × List (String × GeoPoint)) :=
  match normalize_address address with
  | Except.error exc => Except.error exc
  | Except.ok normalized => cached_geocode provider cache normalized

/-! ## The engine over a fallible travel estimator

Modelled from the spec: the spec (§4.4, §8) and the repository's own routes
and tests invoke `recommend_slots(..., location_service=...)`, an engine whose
travel-time lookups go through the fallible `LocationService` and whose
failures abort the whole call; `src`'s `recommendation_service.py` only has
the variant with the infallible analytic estimator, so the fallible engine is
reconstructed here from the spec's words, reusing the window, neighbor and
scoring definitions taken from the source. -/

/-- Modelled from the spec: the per-window suggestion of the fallible engine;
identical to `suggestionFor` except that each travel lookup may fail and the
first failure aborts. -/
def suggestionForE (est : Location → Location → Except RoutingError ℚ)
    (events : List SalesEvent) (new_event : Location)
    (candidate_start candidate_end : ℤ) : Except RoutingError RecommendationResult := do
  let neighbors := neighbors_for_slot events candidate_start candidate_end
  let previous_event := neighbors.1
  let next_event := neighbors.2
  let new_location : Location := ⟨new_event.lat, new_event.lng⟩
  let prev_to_new : ℚ ←
    match previous_event with
    | some e => est ⟨e.lat, e.lng⟩ new_location
    | none => pure 0
  let new_to_next : ℚ ←
    match next_event with
    | some e => est new_location ⟨e.lat, e.lng⟩
    | none => pure 0
  let prev_to_next : ℚ ←
    match previous_event, next_event with
    | some p, some n => est ⟨p.lat, p.lng⟩ ⟨n.lat, n.lng⟩
    | _, _ => pure 0
  let added_travel := roundQ1 (max (prev_to_new + new_to_next - prev_to_next) 0)
  let total_travel := roundQ1 (prev_to_new + new_to_next)
  let before_event_id := previous_event.map SalesEvent.id
  let after_event_id := next_event.map SalesEvent.id
  pure
    { start_at := candidate_start
      end_at := candidate_end
      before_event_id := before_event_id
      after_event_id := after_event_id
      added_travel_min := added_travel
      total_travel_min := total_travel
      explanation := explanationFor before_event_id after_event_id added_travel }

/-- Modelled from the spec: the suggestion-collecting loop of the fallible
engine; a lookup failure in any accepted window aborts the whole loop. -/
def collectSuggestions (est : Location → Location → Except RoutingError ℚ)
    (events : List SalesEvent) (new_event : Location) (duration buffer : ℤ) :
    List CandidateWindow → Except RoutingError (List RecommendationResult)
  | [] => Except.ok []
  | window :: rest =>
    let candidate_start := window.start + buffer
    let candidate_end := candidate_start + duration
    if candidate_end + buffer > window.«end» then
      collectSuggestions est events new_event duration buffer rest
    else
      match suggestionForE est events new_event candidate_start candidate_end with
      | Except.error exc => Except.error exc
      | Except.ok s =>
        match collectSuggestions est events new_event duration buffer rest with
        | Except.error exc => Except.error exc
        | Except.ok others => Except.ok (s :: others)

/-- Modelled from the spec: `recommend_slots` over a fallible travel estimator
(as invoked by the repository's routes and tests with a `location_service`);
it either fails with the first lookup's error or returns the full ranked list,
never a partial one. -/
def recommend_slotsE (est : Location → Location → Except RoutingError ℚ)
    (date_start date_end : ℤ) (events : List SalesEvent) (new_event : Location)
    (duration_minutes buffer_minutes : ℤ) : Except RoutingError (List RecommendationResult) :=
  match collectSuggestions est events new_event duration_minutes buffer_minutes
      (build_candidate_windows date_start date_end events) with
  | Except.error exc => Except.error exc
  | Except.ok suggestions => Except.ok ((suggestions.insertionSort rankLE).take MAX_SUGGESTIONS)

/-! ## The analytic travel estimator (`travel_service.py`), over ℝ -/

/-- `AVERAGE_CITY_SPEED_KMH` from `travel_service.py`. -/
def AVERAGE_CITY_SPEED_KMH : ℝ := 35

/-- `TRAFFIC_MULTIPLIER` from `travel_service.py`. -/
def TRAFFIC_MULTIPLIER : ℝ := 1.2

/-- `math.radians`: degrees to radians. -/
noncomputable def radians (degrees : ℝ) : ℝ := degrees * (Real.pi / 180)

open Classical in
/-- `math.atan2 y x`: the angle of the point `(x, y)`. -/
noncomputable def atan2 (y x : ℝ) : ℝ :=
  if 0 < x then Real.arctan (y / x)
  else if x < 0 ∧ 0 ≤ y then Real.arctan (y / x) + Real.pi
  else if x < 0 then Real.arctan (y / x) - Real.pi
  else if 0 < y then Real.pi / 2
  else if y < 0 then -(Real.pi / 2)
  else 0

/-- `travel_service._haversine_km`: great-circle distance on a sphere of
radius 6371 km via the haversine formula. -/
noncomputable def haversine_km (origin_lat origin_lng dest_lat dest_lng : ℝ) : ℝ :=
  let radius : ℝ := 6371
  let d_lat := radians (dest_lat - origin_lat)
  let d_lng := radians (dest_lng - origin_lng)
  let a := Real.sin (d_lat / 2) ^ 2 +
    Real.cos (radians origin_lat) * Real.cos (radians dest_lat) * Real.sin (d_lng / 2) ^ 2
  let c := 2 * atan2 (Real.sqrt a) (Real.sqrt (1 - a))
  radius * c

open Classical in
/-- Round-half-to-even to an integer over ℝ (CPython's float `round`). -/
noncomputable def roundHalfEvenR (x : ℝ) : ℤ :=
  if x - ⌊x⌋ < 1/2 then ⌊x⌋
  else if 1/2 < x - ⌊x⌋ then ⌊x⌋ + 1
  else if ⌊x⌋ % 2 = 0 then ⌊x⌋ else ⌊x⌋ + 1

/-- Python's `round(x, 1)` over ℝ. -/
noncomputable def roundR1 (x : ℝ) : ℝ := (roundHalfEvenR (10 * x) : ℝ) / 10

/-- `travel_service.estimate_travel_minutes` (also
`HaversineRoutingProvider.estimate_travel_minutes`): haversine distance at
average city speed times the traffic factor, floored at 2.0 minutes and
rounded to one decimal. -/
noncomputable def estimate_travel_minutes (origin_lat origin_lng dest_lat dest_lng : ℝ) : ℝ :=
  let distance_km := haversine_km origin_lat origin_lng dest_lat dest_lng
  let minutes := distance_km / AVERAGE_CITY_SPEED_KMH * 60 * TRAFFIC_MULTIPLIER
  roundR1 (max minutes 2)

/-! ## Lemmas about the ranking order -/

instance : IsTrans RecommendationResult rankLE := by
  constructor
  intro a b c hab hbc
  rcases hab with h1 | ⟨h1, h2⟩ <;> rcases hbc with h3 | ⟨h3, h4⟩
  · exact Or.inl (h1.trans h3)
  · exact Or.inl (h3 ▸ h1)
  · exact Or.inl (h1 ▸ h3)
  · exact Or.inr ⟨h1.trans h3, h2.trans h4⟩

instance : IsTotal RecommendationResult rankLE := by
  constructor
  intro a b
  rcases lt_trichotomy a.added_travel_min b.added_travel_min with h | h | h
  · exact Or.inl (Or.inl h)
  · rcases le_total a.start_at b.start_at with h2 | h2
    · exact Or.inl (Or.inr ⟨h, h2⟩)
    · exact Or.inr (Or.inr ⟨h.symm, h2⟩)
  · exact Or.inr (Or.inl h)

/-- Every returned suggestion comes from an accepted candidate window. -/
lemma mem_recommend_slots {est : Location → Location → ℚ} {date_start date_end : ℤ}
    {events : List SalesEvent} {new_event : Location} {duration buffer : ℤ}
    {r : RecommendationResult}
    (hr : r ∈ recommend_slots est date_start date_end events new_event duration buffer) :
    ∃ w ∈ build_candidate_windows date_start date_end events,
      w.start + buffer + duration + buffer ≤ w.«end» ∧
      r = suggestionFor est events new_event (w.start + buffer) (w.start + buffer + duration) := by
  unfold recommend_slots at hr
  have h1 := List.mem_of_mem_take hr
  have h2 := (List.perm_insertionSort rankLE _).mem_iff.mp h1
  rw [List.mem_filterMap] at h2
  obtain ⟨w, hw, hfw⟩ := h2
  by_cases hc : w.start + buffer + duration + buffer > w.«end»
  · exact Option.noConfusion (by simpa only [if_pos hc] using hfw)
  · simp only [if_neg hc] at hfw
    exact ⟨w, hw, by omega, (Option.some.inj hfw).symm⟩

/-- C5: the output is at most `MAX_SUGGESTIONS` long and is sorted ascending by
the `(added_travel_min, start_at)` pair; this is the `rankLE` order. -/
lemma recommend_slots_length_le (est : Location → Location → ℚ) (date_start date_end : ℤ)
    (events : List SalesEvent) (new_event : Location) (duration buffer : ℤ) :
    (recommend_slots est date_start date_end events new_event duration buffer).length ≤
      MAX_SUGGESTIONS := by
  unfold recommend_slots
  simp [List.length_take]

/-- C5: the claim's theorem. -/
theorem recommend_slots_output_ranked (est : Location → Location → ℚ)
    (date_start date_end : ℤ) (events : List SalesEvent) (new_event : Location)
    (duration buffer : ℤ) :
    (recommend_slots est date_start date_end events new_event duration buffer).length ≤ 10 ∧
    List.Pairwise
      (fun a b : RecommendationResult =>
        a.added_travel_min < b.added_travel_min ∨
          (a.added_travel_min = b.added_travel_min ∧ a.start_at ≤ b.start_at))
      (recommend_slots est date_start date_end events new_event duration buffer) := by
  constructor
  · exact recommend_slots_length_le est date_start date_end events new_event duration buffer
  · have hs : List.Sorted rankLE
        (((build_candidate_windows date_start date_end events).filterMap fun window =>
          if window.start + buffer + duration + buffer > window.«end» then none
          else some (suggestionFor est events new_event (window.start + buffer)
            (window.start + buffer + duration))).insertionSort rankLE) :=
      List.sorted_insertionSort rankLE _
    have hsub := List.take_sublist MAX_SUGGESTIONS
      (((build_candidate_windows date_start date_end events).filterMap fun window =>
        if window.start + buffer + duration + buffer > window.«end» then none
        else some (suggestionFor est events new_event (window.start + buffer)
          (window.start + buffer + duration))).insertionSort rankLE)
    exact List.Pairwise.sublist hsub hs

/-- C4: every returned candidate has width exactly `duration_minutes`, starts
at least `buffer_minutes` after its window's start and ends at least
`buffer_minutes` before its window's end. -/
theorem recommend_slots_slot_geometry (est : Location → Location → ℚ)
    (date_start date_end : ℤ) (events : List SalesEvent) (new_event : Location)
    (duration buffer : ℤ) (_hdur : 0 ≤ duration) (_hbuf : 0 ≤ buffer) :
    ∀ r ∈ recommend_slots est date_start date_end events new_event duration buffer,
      ∃ w ∈ build_candidate_windows date_start date_end events,
        r.end_at - r.start_at = duration ∧
        w.start + buffer ≤ r.start_at ∧
        r.end_at + buffer ≤ w.«end» := by
  intro r hr
  obtain ⟨w, hw, hfit, hr'⟩ := mem_recommend_slots hr
  subst hr'
  refine ⟨w, hw, ?_, ?_, ?_⟩ <;> simp only [suggestionFor] <;> omega

/-! ## Rounding to one decimal is the identity on multiples of one tenth -/

lemma roundHalfEven_intCast (k : ℤ) : roundHalfEven (k : ℚ) = k := by
  simp [roundHalfEven]

lemma roundQ1_tenths (k : ℤ) : roundQ1 ((k : ℚ) / 10) = (k : ℚ) / 10 := by
  unfold roundQ1
  have h10 : (10 : ℚ) * ((k : ℚ) / 10) = (k : ℚ) := by ring
  rw [h10, roundHalfEven_intCast]

lemma max_tenths (m : ℤ) : max ((m : ℚ) / 10) 0 = ((max m 0 : ℤ) : ℚ) / 10 := by
  rcases le_total m 0 with h | h
  · have hm : (m : ℚ) / 10 ≤ 0 :=
      div_nonpos_of_nonpos_of_nonneg (by exact_mod_cast h) (by norm_num)
    rw [max_eq_right hm, max_eq_right h]
    simp
  · have hm : (0 : ℚ) ≤ (m : ℚ) / 10 := div_nonneg (by exact_mod_cast h) (by norm_num)
    rw [max_eq_left hm, max_eq_left h]

/-- C2: every returned candidate's `added_travel_minutes` is exactly
`max(p→n + n→x − p→x, 0)` and its `total_travel_minutes` is `p→n + n→x`,
whence `0 ≤ added ≤ total`.  The hypothesis records what the concrete
travel estimator guarantees: its values are nonnegative multiples of one
tenth (being floored at 2.0 and rounded to one decimal place). -/
theorem recommend_slots_travel_scoring (est : Location → Location → ℚ)
    (htenths : ∀ a b, ∃ k : ℤ, 0 ≤ k ∧ est a b = (k : ℚ) / 10)
    (date_start date_end : ℤ) (events : List SalesEvent) (new_event : Location)
    (duration buffer : ℤ) :
    ∀ r ∈ recommend_slots est date_start date_end events new_event duration buffer,
      r.added_travel_min =
        max (prev_to_new est events new_event r.start_at r.end_at +
          new_to_next est events new_event r.start_at r.end_at -
          prev_to_next est events r.start_at r.end_at) 0 ∧
      r.total_travel_min =
        prev_to_new est events new_event r.start_at r.end_at +
          new_to_next est events new_event r.start_at r.end_at ∧
      0 ≤ r.added_travel_min ∧
      r.added_travel_min ≤ r.total_travel_min := by
  intro r hr
  obtain ⟨w, hw, hfit, hr'⟩ := mem_recommend_slots hr
  subst hr'
  simp only [suggestionFor]
  have hpn : ∃ k : ℤ, 0 ≤ k ∧
      prev_to_new est events new_event (w.start + buffer) (w.start + buffer + duration) =
        (k : ℚ) / 10 := by
    unfold prev_to_new
    cases (neighbors_for_slot events (w.start + buffer) (w.start + buffer + duration)).1 with
    | none => exact ⟨0, le_refl 0, by norm_num⟩
    | some p => exact htenths _ _
  have hnx : ∃ k : ℤ, 0 ≤ k ∧
      new_to_next est events new_event (w.start + buffer) (w.start + buffer + duration) =
        (k : ℚ) / 10 := by
    unfold new_to_next
    cases (neighbors_for_slot events (w.start + buffer) (w.start + buffer + duration)).2 with
    | none => exact ⟨0, le_refl 0, by norm_num⟩
    | some n => exact htenths _ _
  have hpx : ∃ k : ℤ, 0 ≤ k ∧
      prev_to_next est events (w.start + buffer) (w.start + buffer + duration) =
        (k : ℚ) / 10 := by
    unfold prev_to_next
    cases (neighbors_for_slot events (w.start + buffer) (w.start + buffer + duration)).1 with
    | none => exact ⟨0, le_refl 0, by norm_num⟩
    | some p =>
      cases (neighbors_for_slot events (w.start + buffer) (w.start + buffer + duration)).2 with
      | none => exact ⟨0, le_refl 0, by norm_num⟩
      | some n => exact htenths _ _
  obtain ⟨k1, hk1, e1⟩ := hpn
  obtain ⟨k2, hk2, e2⟩ := hnx
  obtain ⟨k3, hk3, e3⟩ := hpx
  rw [e1, e2, e3]
  have hsum : (k1 : ℚ) / 10 + (k2 : ℚ) / 10 - (k3 : ℚ) / 10 = ((k1 + k2 - k3 : ℤ) : ℚ) / 10 := by
    push_cast
    ring
  have htot : (k1 : ℚ) / 10 + (k2 : ℚ) / 10 = ((k1 + k2 : ℤ) : ℚ) / 10 := by
    push_cast
    ring
  rw [hsum, htot, max_tenths, roundQ1_tenths, roundQ1_tenths]
  refine ⟨rfl, rfl, ?_, ?_⟩
  · exact div_nonneg (by exact_mod_cast le_max_right (k1 + k2 - k3) 0) (by norm_num)
  · refine (div_le_div_iff_of_pos_right (by norm_num : (0 : ℚ) < 10)).mpr ?_
    exact_mod_cast (max_le (by omega) (by omega) : max (k1 + k2 - k3) 0 ≤ k1 + k2)

/-! ## Characterizing the neighbor scan -/

lemma getLast?_cons_or {α : Type} (a : α) (l : List α) :
    (a :: l).getLast? = l.getLast?.or (some a) := by
  cases h : l.getLast? <;> simp [List.getLast?_cons, h]

/-- The accumulated previous neighbor is the last event, in scan order, whose
end is at or before the slot start. -/
lemma neighbors_foldl_fst (slot_start slot_end : ℤ) :
    ∀ (events : List SalesEvent) (acc : Option SalesEvent × Option SalesEvent),
      (events.foldl (neighborsStep slot_start slot_end) acc).1 =
        ((events.filter fun ev => decide (ev.end_at ≤ slot_start)).getLast?).or acc.1 := by
  intro events
  induction events with
  | nil => intro acc; simp
  | cons ev rest ih =>
    intro acc
    rw [List.foldl_cons, ih]
    by_cases hp : ev.end_at ≤ slot_start
    · rw [List.filter_cons_of_pos (by simpa using hp), getLast?_cons_or, Option.or_assoc]
      simp [neighborsStep, to_naive_utc, hp]
    · rw [List.filter_cons_of_neg (by simpa using hp)]
      simp [neighborsStep, to_naive_utc, hp]

/-- The accumulated next neighbor is the first event, in scan order, whose
start is at or after the slot end. -/
lemma neighbors_foldl_snd (slot_start slot_end : ℤ) :
    ∀ (events : List SalesEvent) (acc : Option SalesEvent × Option SalesEvent),
      (events.foldl (neighborsStep slot_start slot_end) acc).2 =
        acc.2.or ((events.filter fun ev => decide (slot_end ≤ ev.start_at)).head?) := by
  intro events
  induction events with
  | nil => intro acc; simp
  | cons ev rest ih =>
    intro acc
    rw [List.foldl_cons, ih]
    cases hacc : acc.2 with
    | some v => simp [neighborsStep, hacc]
    | none =>
      by_cases hq : slot_end ≤ ev.start_at
      · rw [List.filter_cons_of_pos (by simpa using hq)]
        simp [neighborsStep, to_naive_utc, hacc, hq]
      · rw [List.filter_cons_of_neg (by simpa using hq)]
        simp [neighborsStep, to_naive_utc, hacc, hq]

/-- `_neighbors_for_slot` returns the last event (in the caller-supplied
order) whose end is ≤ the slot start and the first event (in that order)
whose start is ≥ the slot end. -/
lemma neighbors_for_slot_eq (events : List SalesEvent) (slot_start slot_end : ℤ) :
    neighbors_for_slot events slot_start slot_end =
      ((events.filter fun ev => decide (ev.end_at ≤ slot_start)).getLast?,
       (events.filter fun ev => decide (slot_end ≤ ev.start_at)).head?) := by
  unfold neighbors_for_slot
  rw [Prod.ext_iff]
  constructor
  · rw [neighbors_foldl_fst]
    simp
  · rw [neighbors_foldl_snd]
    simp

/-- The spec's previous-neighbor rule: the last event, in ascending order of
start instant, whose end is ≤ the candidate start. -/
def spec_previous_neighbor (events : List SalesEvent) (candidate_start : ℤ) :
    Option SalesEvent :=
  ((sortByStart events).filter fun ev => decide (ev.end_at ≤ candidate_start)).getLast?

/-- The spec's next-neighbor rule: the first event, in ascending order of
start instant, whose start is ≥ the candidate end. -/
def spec_next_neighbor (events : List SalesEvent) (candidate_end : ℤ) :
    Option SalesEvent :=
  ((sortByStart events).filter fun ev => decide (candidate_end ≤ ev.start_at)).head?

/-- C1 (amended): the neighbors recorded on every returned candidate are the
last/first matching events in the *caller-supplied* order of the input list;
when the input list is already sorted ascending by start instant this is
exactly the spec's sorted-order neighbor rule. -/
theorem recommend_slots_neighbor_choice (est : Location → Location → ℚ)
    (date_start date_end : ℤ) (events : List SalesEvent) (new_event : Location)
    (duration buffer : ℤ) :
    ∀ r ∈ recommend_slots est date_start date_end events new_event duration buffer,
      (r.before_event_id =
          ((events.filter fun ev => decide (ev.end_at ≤ r.start_at)).getLast?).map
            SalesEvent.id ∧
        r.after_event_id =
          ((events.filter fun ev => decide (r.end_at ≤ ev.start_at)).head?).map
            SalesEvent.id) ∧
      (List.Pairwise (fun a b : SalesEvent => a.start_at ≤ b.start_at) events →
        r.before_event_id = (spec_previous_neighbor events r.start_at).map SalesEvent.id ∧
        r.after_event_id = (spec_next_neighbor events r.end_at).map SalesEvent.id) := by
  intro r hr
  obtain ⟨w, hw, hfit, hr'⟩ := mem_recommend_slots hr
  subst hr'
  have hne := neighbors_for_slot_eq events (w.start + buffer) (w.start + buffer + duration)
  constructor
  · constructor <;> simp [suggestionFor, hne]
  · intro hsorted
    have hself : sortByStart events = events := List.Sorted.insertionSort_eq hsorted
    unfold spec_previous_neighbor spec_next_neighbor
    rw [hself]
    constructor <;> simp [suggestionFor, hne]

/-! ## The empty-calendar case -/

lemma neighbors_for_slot_nil (slot_start slot_end : ℤ) :
    neighbors_for_slot [] slot_start slot_end = (none, none) := rfl

lemma roundQ1_zero : roundQ1 0 = 0 := by
  unfold roundQ1 roundHalfEven
  norm_num

lemma suggestionFor_nil (est : Location → Location → ℚ) (new_event : Location)
    (candidate_start candidate_end : ℤ) :
    suggestionFor est [] new_event candidate_start candidate_end =
      { start_at := candidate_start
        end_at := candidate_end
        before_event_id := none
        after_event_id := none
        added_travel_min := 0
        total_travel_min := 0
        explanation := explanationFor none none 0 } := by
  unfold suggestionFor prev_to_new new_to_next prev_to_next
  simp [neighbors_for_slot_nil, roundQ1_zero]

/-- Window construction over an empty event list: the date range clipped to
the working hours of `date_start`'s day, when non-degenerate. -/
lemma build_candidate_windows_nil (date_start date_end : ℤ) :
    build_candidate_windows date_start date_end [] =
      (if max date_start (replaceHour date_start DAY_START_HOUR) <
          min date_end (replaceHour date_start DAY_END_HOUR) then
        [⟨max date_start (replaceHour date_start DAY_START_HOUR),
          min date_end (replaceHour date_start DAY_END_HOUR)⟩]
      else []) := by
  have hds : date_start ≤ max date_start (replaceHour date_start DAY_START_HOUR) :=
    le_max_left _ _
  have hde : min date_end (replaceHour date_start DAY_END_HOUR) ≤ date_end :=
    min_le_left _ _
  by_cases h1 : date_start < date_end
  · by_cases h2 : max date_start (replaceHour date_start DAY_START_HOUR) <
        min date_end (replaceHour date_start DAY_END_HOUR)
    · rw [if_pos h2]
      simp [build_candidate_windows, sortByStart, gapWindows, to_naive_utc, trimWindow, h1, h2]
    · rw [if_neg h2]
      simp [build_candidate_windows, sortByStart, gapWindows, to_naive_utc, trimWindow, h1, h2]
  · have h2 : ¬ max date_start (replaceHour date_start DAY_START_HOUR) <
        min date_end (replaceHour date_start DAY_END_HOUR) :=
      fun hlt => h1 (lt_of_le_of_lt hds (lt_of_lt_of_le hlt hde))
    rw [if_neg h2]
    simp [build_candidate_windows, sortByStart, gapWindows, to_naive_utc, trimWindow, h1]

/-- C7 (amended): with no events in range, the engine returns exactly one
candidate whose slot starts `buffer` after the *working-hours-clipped* start
of the date range (`max(date_start, 08:00 of date_start's day)`), with both
neighbor ids absent and zero travel, or no candidate at all when the clipped
window cannot fit the buffered duration. -/
theorem recommend_slots_no_events (est : Location → Location → ℚ)
    (date_start date_end : ℤ) (new_event : Location) (duration buffer : ℤ) :
    recommend_slots est date_start date_end [] new_event duration buffer =
      (if max date_start (replaceHour date_start DAY_START_HOUR) <
            min date_end (replaceHour date_start DAY_END_HOUR) ∧
          max date_start (replaceHour date_start DAY_START_HOUR) + buffer + duration + buffer ≤
            min date_end (replaceHour date_start DAY_END_HOUR) then
        [{ start_at := max date_start (replaceHour date_start DAY_START_HOUR) + buffer
           end_at := max date_start (replaceHour date_start DAY_START_HOUR) + buffer + duration
           before_event_id := none
           after_event_id := none
           added_travel_min := 0
           total_travel_min := 0
           explanation := explanationFor none none 0 }]
      else []) := by
  by_cases h2 : max date_start (replaceHour date_start DAY_START_HOUR) <
      min date_end (replaceHour date_start DAY_END_HOUR)
  · by_cases h3 : max date_start (replaceHour date_start DAY_START_HOUR) + buffer + duration +
        buffer ≤ min date_end (replaceHour date_start DAY_END_HOUR)
    · rw [if_pos ⟨h2, h3⟩]
      simp only [recommend_slots, build_candidate_windows_nil, if_pos h2]
      rw [List.filterMap_cons]
      simp only [List.filterMap_nil]
      rw [if_neg (by omega)]
      simp [List.insertionSort, List.orderedInsert, MAX_SUGGESTIONS, suggestionFor_nil]
    · rw [if_neg (fun hc => h3 hc.2)]
      simp only [recommend_slots, build_candidate_windows_nil, if_pos h2]
      rw [List.filterMap_cons]
      simp only [List.filterMap_nil]
      rw [if_pos (by omega)]
      simp [List.insertionSort, MAX_SUGGESTIONS]
  · rw [if_neg (fun hc => h2 hc.1)]
    simp only [recommend_slots, build_candidate_windows_nil]
    rw [if_neg h2]
    simp [List.insertionSort, MAX_SUGGESTIONS]

/-! ## Disjointness and ordering of the candidate windows -/

instance : IsTotal SalesEvent (fun a b => a.start_at ≤ b.start_at) :=
  ⟨fun a b => le_total a.start_at b.start_at⟩

instance : IsTrans SalesEvent (fun a b => a.start_at ≤ b.start_at) :=
  ⟨fun _ _ _ hab hbc => le_trans hab hbc⟩

/-- Invariant of the window-emitting walk over a sorted list of well-formed
events: the cursor only advances, emitted windows live between the initial
and the final cursor, they are ordered and disjoint, they never overlap a
walked event, and every walked event ends at or before the final cursor. -/
lemma gapWindows_inv :
    ∀ (events : List SalesEvent) (cursor : ℤ),
      List.Pairwise (fun a b : SalesEvent => a.start_at ≤ b.start_at) events →
      (∀ ev ∈ events, ev.start_at ≤ ev.end_at) →
      cursor ≤ (gapWindows cursor events).2 ∧
      (∀ w ∈ (gapWindows cursor events).1,
        cursor ≤ w.start ∧ w.«end» ≤ (gapWindows cursor events).2) ∧
      List.Pairwise (fun a b : CandidateWindow => a.«end» ≤ b.start)
        (gapWindows cursor events).1 ∧
      (∀ w ∈ (gapWindows cursor events).1, ∀ ev ∈ events,
        ev.end_at ≤ w.start ∨ w.«end» ≤ ev.start_at) ∧
      (∀ ev ∈ events, ev.end_at ≤ (gapWindows cursor events).2) := by
  intro events
  induction events with
  | nil =>
    intro cursor _ _
    simp [gapWindows]
  | cons ev rest ih =>
    intro cursor hsort hwf
    have hsort' := (List.pairwise_cons.mp hsort).2
    have hfirst := (List.pairwise_cons.mp hsort).1
    have hwf' : ∀ e ∈ rest, e.start_at ≤ e.end_at :=
      fun e he => hwf e (List.mem_cons_of_mem _ he)
    have hwfe : ev.start_at ≤ ev.end_at := hwf ev (List.mem_cons_self _ _)
    obtain ⟨ih1, ih2, ih3, ih4, ih5⟩ :=
      ih (if cursor < ev.end_at then ev.end_at else cursor) hsort' hwf'
    have hcc' : cursor ≤ (if cursor < ev.end_at then ev.end_at else cursor) := by
      split <;> omega
    have hevc' : ev.end_at ≤ (if cursor < ev.end_at then ev.end_at else cursor) := by
      split <;> omega
    have hevs : ev.start_at ≤ (if cursor < ev.end_at then ev.end_at else cursor) :=
      le_trans hwfe hevc'
    simp only [gapWindows, to_naive_utc]
    by_cases hlt : cursor < ev.start_at
    all_goals simp only [if_pos, if_neg, hlt, if_true, if_false, ite_true, ite_false,
      List.singleton_append, List.nil_append]
    · refine ⟨le_trans hcc' ih1, ?_, ?_, ?_, ?_⟩
      · intro w hw
        rcases List.mem_cons.mp hw with rfl | hw'
        · exact ⟨le_refl _, le_trans hevs ih1⟩
        · exact ⟨le_trans hcc' (ih2 w hw').1, (ih2 w hw').2⟩
      · refine List.pairwise_cons.mpr ⟨?_, ih3⟩
        intro w' hw'
        exact le_trans hevs (ih2 w' hw').1
      · intro w hw ev' hev'
        rcases List.mem_cons.mp hw with rfl | hw'
        · rcases List.mem_cons.mp hev' with rfl | hev''
          · exact Or.inr (le_refl _)
          · exact Or.inr (hfirst ev' hev'')
        · rcases List.mem_cons.mp hev' with rfl | hev''
          · exact Or.inl (le_trans hevc' (ih2 w hw').1)
          · exact ih4 w hw' ev' hev''
      · intro ev' hev'
        rcases List.mem_cons.mp hev' with rfl | hev''
        · exact le_trans hevc' ih1
        · exact ih5 ev' hev''
    · refine ⟨le_trans hcc' ih1, ?_, ih3, ?_, ?_⟩
      · intro w hw
        exact ⟨le_trans hcc' (ih2 w hw).1, (ih2 w hw).2⟩
      · intro w hw ev' hev'
        rcases List.mem_cons.mp hev' with rfl | hev''
        · exact Or.inl (le_trans hevc' (ih2 w hw).1)
        · exact ih4 w hw ev' hev''
      · intro ev' hev'
        rcases List.mem_cons.mp hev' with rfl | hev''
        · exact le_trans hevc' ih1
        · exact ih5 ev' hev''

/-- Clipping a window to working hours shrinks it and keeps it non-degenerate. -/
lemma trimWindow_shrink {w w' : CandidateWindow} (h : trimWindow w = some w') :
    w.start ≤ w'.start ∧ w'.«end» ≤ w.«end» ∧ w'.start < w'.«end» := by
  unfold trimWindow at h
  by_cases hc : max w.start (replaceHour w.start DAY_START_HOUR) <
      min w.«end» (replaceHour w.start DAY_END_HOUR)
  · rw [if_pos hc] at h
    obtain rfl := Option.some.inj h
    exact ⟨le_max_left _ _, min_le_left _ _, hc⟩
  · rw [if_neg hc] at h
    exact Option.noConfusion h

/-- C3 (amended): when every input event is well-formed (`start ≤ end`), the
clipped candidate windows are pairwise disjoint and ordered ascending, each is
non-degenerate, and none overlaps any input event's `[start, end)` interval. -/
theorem build_candidate_windows_disjoint (date_start date_end : ℤ)
    (events : List SalesEvent) (hwf : ∀ ev ∈ events, ev.start_at ≤ ev.end_at) :
    List.Pairwise (fun a b : CandidateWindow => a.«end» ≤ b.start)
      (build_candidate_windows date_start date_end events) ∧
    ∀ w ∈ build_candidate_windows date_start date_end events,
      w.start < w.«end» ∧
      ∀ ev ∈ events, ¬ (w.start < ev.end_at ∧ ev.start_at < w.«end») := by
  have hperm := List.perm_insertionSort (fun a b : SalesEvent => a.start_at ≤ b.start_at) events
  have hsort : List.Pairwise (fun a b : SalesEvent => a.start_at ≤ b.start_at)
      (sortByStart events) :=
    List.sorted_insertionSort (fun a b : SalesEvent => a.start_at ≤ b.start_at) events
  have hmem : ∀ ev : SalesEvent, ev ∈ sortByStart events ↔ ev ∈ events :=
    fun ev => hperm.mem_iff
  have hwfs : ∀ ev ∈ sortByStart events, ev.start_at ≤ ev.end_at :=
    fun ev hev => hwf ev ((hmem ev).mp hev)
  obtain ⟨inv1, inv2, inv3, inv4, inv5⟩ :=
    gapWindows_inv (sortByStart events) date_start hsort hwfs
  -- the pre-trim window list: the gaps plus the optional trailing window
  have hpre : List.Pairwise (fun a b : CandidateWindow => a.«end» ≤ b.start)
      ((gapWindows date_start (sortByStart events)).1 ++
        (if (gapWindows date_start (sortByStart events)).2 < date_end then
          [⟨(gapWindows date_start (sortByStart events)).2, date_end⟩] else [])) ∧
      ∀ w ∈ (gapWindows date_start (sortByStart events)).1 ++
        (if (gapWindows date_start (sortByStart events)).2 < date_end then
          [⟨(gapWindows date_start (sortByStart events)).2, date_end⟩] else []),
        ∀ ev ∈ events, ev.end_at ≤ w.start ∨ w.«end» ≤ ev.start_at := by
    constructor
    · refine List.pairwise_append.mpr ⟨inv3, ?_, ?_⟩
      · split <;> simp
      · intro a ha b hb
        have hb' : b = ⟨(gapWindows date_start (sortByStart events)).2, date_end⟩ := by
          by_cases hcond : (gapWindows date_start (sortByStart events)).2 < date_end
          · rw [if_pos hcond] at hb
            simpa using hb
          · rw [if_neg hcond] at hb
            exact absurd hb (by simp)
        subst hb'
        exact (inv2 a ha).2
    · intro w hw ev hev
      rcases List.mem_append.mp hw with hw' | hw'
      · exact inv4 w hw' ev ((hmem ev).mpr hev)
      · have hw'' : w = ⟨(gapWindows date_start (sortByStart events)).2, date_end⟩ := by
          by_cases hcond : (gapWindows date_start (sortByStart events)).2 < date_end
          · rw [if_pos hcond] at hw'
            simpa using hw'
          · rw [if_neg hcond] at hw'
            exact absurd hw' (by simp)
        subst hw''
        exact Or.inl (inv5 ev ((hmem ev).mpr hev))
  constructor
  · refine List.Pairwise.filterMap trimWindow ?_ hpre.1
    intro a a' hR b hb b' hb'
    have hbs := trimWindow_shrink (Option.mem_def.mp hb)
    have hbs' := trimWindow_shrink (Option.mem_def.mp hb')
    calc b.«end» ≤ a.«end» := hbs.2.1
      _ ≤ a'.start := hR
      _ ≤ b'.start := hbs'.1
  · intro w hw
    obtain ⟨a, ha, hfa⟩ := List.mem_filterMap.mp hw
    have hs := trimWindow_shrink hfa
    refine ⟨hs.2.2, ?_⟩
    intro ev hev hover
    rcases hpre.2 a ha ev hev with hleft | hright
    · omega
    · omega

/-! ## Failure propagation through the fallible engine -/

/-- A failing lookup aborts the per-window suggestion as soon as the slot has
any neighbor. -/
lemma suggestionForE_error {est : Location → Location → Except RoutingError ℚ}
    {e : RoutingError} (hest : ∀ a b, est a b = Except.error e)
    (events : List SalesEvent) (new_event : Location) (candidate_start candidate_end : ℤ)
    (hnb : (neighbors_for_slot events candidate_start candidate_end).1 ≠ none ∨
      (neighbors_for_slot events candidate_start candidate_end).2 ≠ none) :
    suggestionForE est events new_event candidate_start candidate_end = Except.error e := by
  unfold suggestionForE
  cases h1 : (neighbors_for_slot events candidate_start candidate_end).1 with
  | some p =>
    simp [h1, hest, Bind.bind, Except.bind]
  | none =>
    cases h2 : (neighbors_for_slot events candidate_start candidate_end).2 with
    | some n =>
      simp [h1, h2, hest, Bind.bind, Except.bind, Pure.pure, Except.pure]
    | none =>
      rcases hnb with hc | hc
      · exact absurd h1 hc
      · exact absurd h2 hc

/-- With no neighbors, the per-window suggestion performs no lookup and
succeeds even under an always-failing estimator. -/
lemma suggestionForE_no_neighbors (est : Location → Location → Except RoutingError ℚ)
    (events : List SalesEvent) (new_event : Location) (candidate_start candidate_end : ℤ)
    (h1 : (neighbors_for_slot events candidate_start candidate_end).1 = none)
    (h2 : (neighbors_for_slot events candidate_start candidate_end).2 = none) :
    ∃ s, suggestionForE est events new_event candidate_start candidate_end = Except.ok s := by
  unfold suggestionForE
  simp [h1, h2, Bind.bind, Except.bind, Pure.pure, Except.pure]

/-- The collection loop of the fallible engine fails outright as soon as some
accepted window's slot has a neighbor and every lookup fails. -/
lemma collectSuggestions_error {est : Location → Location → Except RoutingError ℚ}
    {e : RoutingError} (hest : ∀ a b, est a b = Except.error e)
    (events : List SalesEvent) (new_event : Location) (duration buffer : ℤ) :
    ∀ windows : List CandidateWindow,
      (∃ w ∈ windows, w.start + buffer + duration + buffer ≤ w.«end» ∧
        ((neighbors_for_slot events (w.start + buffer) (w.start + buffer + duration)).1 ≠ none ∨
         (neighbors_for_slot events (w.start + buffer) (w.start + buffer + duration)).2 ≠ none)) →
      collectSuggestions est events new_event duration buffer windows = Except.error e := by
  intro windows
  induction windows with
  | nil => rintro ⟨w, hw, -, -⟩; exact absurd hw (List.not_mem_nil w)
  | cons w rest ih =>
    rintro ⟨w₀, hw₀, hfit₀, hnb₀⟩
    unfold collectSuggestions
    by_cases hg : w.start + buffer + duration + buffer > w.«end»
    · rw [if_pos hg]
      refine ih ⟨w₀, ?_, hfit₀, hnb₀⟩
      rcases List.mem_cons.mp hw₀ with rfl | hmem
      · omega
      · exact hmem
    · rw [if_neg hg]
      by_cases hnbw :
          (neighbors_for_slot events (w.start + buffer) (w.start + buffer + duration)).1 ≠ none ∨
          (neighbors_for_slot events (w.start + buffer) (w.start + buffer + duration)).2 ≠ none
      · rw [suggestionForE_error hest events new_event _ _ hnbw]
      · push_neg at hnbw
        obtain ⟨s, hs⟩ := suggestionForE_no_neighbors est events new_event
          (w.start + buffer) (w.start + buffer + duration) hnbw.1 hnbw.2
        rw [hs]
        have hrest : ∃ w' ∈ rest, w'.start + buffer + duration + buffer ≤ w'.«end» ∧
            ((neighbors_for_slot events (w'.start + buffer)
                (w'.start + buffer + duration)).1 ≠ none ∨
             (neighbors_for_slot events (w'.start + buffer)
                (w'.start + buffer + duration)).2 ≠ none) := by
          rcases List.mem_cons.mp hw₀ with rfl | hmem
          · rcases hnb₀ with hc | hc
            · exact absurd hnbw.1 hc
            · exact absurd hnbw.2 hc
          · exact ⟨w₀, hmem, hfit₀, hnb₀⟩
        rw [ih hrest]

/-- C6: the routing chain of `LocationService.estimate_travel_minutes` — a
primary `RoutingError` is absorbed by a configured fallback and propagated
when none is configured — and (modelled from the spec) a recommendation call
whose travel lookups go through an always-failing service with no fallback
fails entirely with that error whenever any lookup actually happens, never
returning a partial list. -/
theorem estimate_travel_minutes_two_tier_chain (svc : LocationService) (e : RoutingError) :
    (∀ origin destination, svc.routing_provider origin destination = Except.error e →
      (svc.fallback_routing_provider = none →
        svc.estimate_travel_minutes origin destination = Except.error e) ∧
      (∀ fallback, svc.fallback_routing_provider = some fallback →
        svc.estimate_travel_minutes origin destination = fallback origin destination)) ∧
    (∀ date_start date_end : ℤ, ∀ events : List SalesEvent, ∀ new_event : Location,
      ∀ duration buffer : ℤ,
      (∀ origin destination, svc.routing_provider origin destination = Except.error e) →
      svc.fallback_routing_provider = none →
      (∃ w ∈ build_candidate_windows date_start date_end events,
        w.start + buffer + duration + buffer ≤ w.«end» ∧
        ((neighbors_for_slot events (w.start + buffer) (w.start + buffer + duration)).1 ≠ none ∨
         (neighbors_for_slot events (w.start + buffer) (w.start + buffer + duration)).2 ≠ none)) →
      recommend_slotsE
        (fun a b => svc.estimate_travel_minutes ⟨a.lat, a.lng⟩ ⟨b.lat, b.lng⟩)
        date_start date_end events new_event duration buffer = Except.error e) := by
  constructor
  · intro origin destination hfail
    constructor
    · intro hnone
      unfold LocationService.estimate_travel_minutes
      rw [hfail, hnone]
    · intro fallback hsome
      unfold LocationService.estimate_travel_minutes
      rw [hfail, hsome]
  · intro date_start date_end events new_event duration buffer hall hnone hex
    have hconst : ∀ a b : Location,
        svc.estimate_travel_minutes ⟨a.lat, a.lng⟩ ⟨b.lat, b.lng⟩ = Except.error e := by
      intro a b
      unfold LocationService.estimate_travel_minutes
      rw [hall, hnone]
    unfold recommend_slotsE
    rw [collectSuggestions_error hconst events new_event duration buffer _ hex]

/-! ## Geocode memoization -/

/-- C9: `geocode_address` memoizes by the normalized address in the bounded
LRU cache: a hit returns the cached point without consulting the provider
(the outcome is provider-independent), a provider error propagates with
nothing cached so that a retry consults the provider again, and the cache
never grows beyond its capacity. -/
theorem geocode_address_memoization
    (provider provider2 : String → Except LocationError GeoPoint)
    (cache : List (String × GeoPoint)) (address normalized : String)
    (hn : normalize_address address = Except.ok normalized) :
    (∀ kv, cache.find? (fun kv => kv.1 == normalized) = some kv →
      geocode_address provider cache address =
        Except.ok (kv.2, (kv.1, kv.2) :: cache.eraseP (fun kv' => kv'.1 == normalized)) ∧
      geocode_address provider cache address = geocode_address provider2 cache address) ∧
    (∀ e, cache.find? (fun kv => kv.1 == normalized) = none →
      provider normalized = Except.error e →
      geocode_address provider cache address = Except.error e ∧
      (∀ point, provider2 normalized = Except.ok point →
        geocode_address provider2 cache address =
          Except.ok (point, ((normalized, point) :: cache).take GEOCODE_CACHE_MAXSIZE))) ∧
    (∀ point cache', geocode_address provider cache address = Except.ok (point, cache') →
      cache.length ≤ GEOCODE_CACHE_MAXSIZE → cache'.length ≤ GEOCODE_CACHE_MAXSIZE) := by
  have hga : ∀ p : String → Except LocationError GeoPoint,
      geocode_address p cache address = cached_geocode p cache normalized := by
    intro p
    unfold geocode_address
    rw [hn]
  refine ⟨?_, ?_, ?_⟩
  · intro kv hfind
    constructor
    · rw [hga provider]
      unfold cached_geocode
      rw [hfind]
    · rw [hga provider, hga provider2]
      unfold cached_geocode
      rw [hfind]
  · intro e hfind herr
    constructor
    · rw [hga provider]
      unfold cached_geocode
      rw [hfind, herr]
    · intro point hok
      rw [hga provider2]
      unfold cached_geocode
      rw [hfind, hok]
  · intro point cache' hok hlen
    rw [hga provider] at hok
    unfold cached_geocode at hok
    cases hfind : cache.find? (fun kv => kv.1 == normalized) with
    | some kv =>
      rw [hfind] at hok
      have hkv := Except.ok.inj hok
      have hmem := List.mem_of_find?_eq_some hfind
      have hp := List.find?_some hfind
      have hcache' : cache' = (kv.1, kv.2) :: cache.eraseP (fun kv' => kv'.1 == normalized) :=
        (congrArg Prod.snd hkv).symm
      rw [hcache', List.length_cons, List.length_eraseP_of_mem hmem hp]
      have hpos : 0 < cache.length := List.length_pos.mpr (List.ne_nil_of_mem hmem)
      omega
    | none =>
      rw [hfind] at hok
      cases hprov : provider normalized with
      | error e => rw [hprov] at hok; exact Except.noConfusion hok
      | ok pt =>
        rw [hprov] at hok
        have hkv := Except.ok.inj hok
        have hcache' : cache' = ((normalized, pt) :: cache).take GEOCODE_CACHE_MAXSIZE :=
          (congrArg Prod.snd hkv).symm
        rw [hcache', List.length_take]
        exact inf_le_left

/-! ## Analytic facts about the haversine estimator -/

lemma atan2_zero_one : atan2 0 1 = 0 := by
  unfold atan2
  rw [if_pos one_pos]
  simp

lemma haversine_km_self (lat lng : ℝ) : haversine_km lat lng lat lng = 0 := by
  unfold haversine_km radians
  simp [atan2_zero_one]

lemma roundHalfEvenR_intCast (k : ℤ) : roundHalfEvenR (k : ℝ) = k := by
  unfold roundHalfEvenR
  rw [Int.floor_intCast]
  rw [if_pos (by norm_num)]

lemma roundR1_two : roundR1 2 = 2 := by
  unfold roundR1
  have h20 : (10 : ℝ) * 2 = ((20 : ℤ) : ℝ) := by norm_num
  rw [h20, roundHalfEvenR_intCast]
  norm_num

/-- Round-half-to-even over ℝ is monotone nondecreasing. -/
lemma roundHalfEvenR_mono {x y : ℝ} (h : x ≤ y) : roundHalfEvenR x ≤ roundHalfEvenR y := by
  have hmn : ⌊x⌋ ≤ ⌊y⌋ := Int.floor_le_floor h
  by_cases hfl : ⌊x⌋ = ⌊y⌋
  · have hfr : x - ⌊x⌋ ≤ y - ⌊y⌋ := by
      rw [hfl]
      linarith
    unfold roundHalfEvenR
    rw [hfl] at hfr ⊢
    split_ifs <;> first
      | omega
      | (exfalso; linarith)
  · have hlt : ⌊x⌋ < ⌊y⌋ := lt_of_le_of_ne hmn hfl
    have hx_ub : roundHalfEvenR x ≤ ⌊x⌋ + 1 := by
      unfold roundHalfEvenR
      split_ifs <;> omega
    have hy_lb : ⌊y⌋ ≤ roundHalfEvenR y := by
      unfold roundHalfEvenR
      split_ifs <;> omega
    omega

lemma roundR1_mono {x y : ℝ} (h : x ≤ y) : roundR1 x ≤ roundR1 y := by
  unfold roundR1
  have h10 : (10 : ℝ) * x ≤ 10 * y := by linarith
  have := roundHalfEvenR_mono h10
  have hcast : ((roundHalfEvenR (10 * x) : ℤ) : ℝ) ≤ ((roundHalfEvenR (10 * y) : ℤ) : ℝ) := by
    exact_mod_cast this
  linarith

/-- C8 (amended): the haversine estimate between identical points is exactly
the floor value 2.0 minutes, and the estimate is monotone *nondecreasing* in
great-circle distance (the 2.0-minute floor and the one-decimal rounding make
strict growth fail). -/
theorem estimate_travel_minutes_floor_and_monotone :
    (∀ lat lng : ℝ, estimate_travel_minutes lat lng lat lng = 2) ∧
    (∀ o1lat o1lng d1lat d1lng o2lat o2lng d2lat d2lng : ℝ,
      haversine_km o1lat o1lng d1lat d1lng < haversine_km o2lat o2lng d2lat d2lng →
      estimate_travel_minutes o1lat o1lng d1lat d1lng ≤
        estimate_travel_minutes o2lat o2lng d2lat d2lng) := by
  constructor
  · intro lat lng
    simp only [estimate_travel_minutes]
    rw [haversine_km_self]
    have hmax : max ((0 : ℝ) / AVERAGE_CITY_SPEED_KMH * 60 * TRAFFIC_MULTIPLIER) 2 = 2 := by
      unfold AVERAGE_CITY_SPEED_KMH TRAFFIC_MULTIPLIER
      norm_num
    rw [hmax, roundR1_two]
  · intro o1lat o1lng d1lat d1lng o2lat o2lng d2lat d2lng h
    simp only [estimate_travel_minutes]
    apply roundR1_mono
    apply max_le_max _ (le_refl (2 : ℝ))
    unfold AVERAGE_CITY_SPEED_KMH TRAFFIC_MULTIPLIER
    nlinarith [h]

/-- C10: the analytic travel estimate is symmetric in origin and destination. -/
theorem estimate_travel_minutes_symm (alat alng blat blng : ℝ) :
    estimate_travel_minutes alat alng blat blng = estimate_travel_minutes blat blng alat alng := by
  suffices hsym : haversine_km alat alng blat blng = haversine_km blat blng alat alng by
    simp only [estimate_travel_minutes]
    rw [hsym]
  simp only [haversine_km]
  have h1 : radians (blat - alat) / 2 = -(radians (alat - blat) / 2) := by
    unfold radians
    ring
  have h2 : radians (blng - alng) / 2 = -(radians (alng - blng) / 2) := by
    unfold radians
    ring
  have ha : Real.sin (radians (blat - alat) / 2) ^ 2 +
      Real.cos (radians alat) * Real.cos (radians blat) *
        Real.sin (radians (blng - alng) / 2) ^ 2 =
      Real.sin (radians (alat - blat) / 2) ^ 2 +
      Real.cos (radians blat) * Real.cos (radians alat) *
        Real.sin (radians (alng - blng) / 2) ^ 2 := by
    rw [h1, h2, Real.sin_neg, Real.sin_neg]
    ring
  rw [ha]

/-- The haversine distance between two equator points `0` and `δ` degrees of
longitude apart (`0 < δ < 180`) reduces to the exact arc length. -/
lemma haversine_km_equator {δ : ℝ} (h0 : 0 < δ) (h1 : δ < 180) :
    haversine_km 0 0 0 δ = 6371 * radians δ := by
  simp only [haversine_km]
  have hrad0 : radians (0 - 0) = 0 := by
    unfold radians
    ring
  have hcos0 : Real.cos (radians 0) = 1 := by
    have hr : radians 0 = 0 := by unfold radians; ring
    rw [hr, Real.cos_zero]
  have hπ := Real.pi_pos
  have hxpos : 0 < radians (δ - 0) / 2 := by
    unfold radians
    nlinarith
  have hxlt : radians (δ - 0) / 2 < Real.pi / 2 := by
    unfold radians
    nlinarith
  have hsin_pos : 0 < Real.sin (radians (δ - 0) / 2) :=
    Real.sin_pos_of_pos_of_lt_pi hxpos (by linarith)
  have hcos_pos : 0 < Real.cos (radians (δ - 0) / 2) :=
    Real.cos_pos_of_mem_Ioo ⟨by linarith, hxlt⟩
  have ha : Real.sin (radians (0 - 0) / 2) ^ 2 +
      Real.cos (radians 0) * Real.cos (radians 0) *
        Real.sin (radians (δ - 0) / 2) ^ 2 =
      Real.sin (radians (δ - 0) / 2) ^ 2 := by
    rw [hrad0, hcos0]
    simp
  rw [ha]
  have hs1 : Real.sqrt (Real.sin (radians (δ - 0) / 2) ^ 2) =
      Real.sin (radians (δ - 0) / 2) := Real.sqrt_sq hsin_pos.le
  have h1a : 1 - Real.sin (radians (δ - 0) / 2) ^ 2 =
      Real.cos (radians (δ - 0) / 2) ^ 2 := (Real.cos_sq' _).symm
  have hs2 : Real.sqrt (1 - Real.sin (radians (δ - 0) / 2) ^ 2) =
      Real.cos (radians (δ - 0) / 2) := by
    rw [h1a]
    exact Real.sqrt_sq hcos_pos.le
  rw [hs1, hs2]
  have hat : atan2 (Real.sin (radians (δ - 0) / 2)) (Real.cos (radians (δ - 0) / 2)) =
      radians (δ - 0) / 2 := by
    unfold atan2
    rw [if_pos hcos_pos, ← Real.tan_eq_sin_div_cos,
      Real.arctan_tan (by linarith) hxlt]
  rw [hat]
  unfold radians
  ring

/-- C8's counterexample input: two equator points one ten-thousandth of a
degree apart are strictly farther apart than a point from itself, but both
distances fall below the 2.0-minute floor, so the estimates coincide. -/
theorem estimate_travel_minutes_not_strictly_monotone :
    haversine_km 0 0 0 0 < haversine_km 0 0 0 (1 / 10000) ∧
    estimate_travel_minutes 0 0 0 0 = 2 ∧
    estimate_travel_minutes 0 0 0 (1 / 10000) = 2 ∧
    ¬ estimate_travel_minutes 0 0 0 0 < estimate_travel_minutes 0 0 0 (1 / 10000) := by
  have hδ0 : (0 : ℝ) < 1 / 10000 := by norm_num
  have hδ1 : (1 / 10000 : ℝ) < 180 := by norm_num
  have heq := haversine_km_equator hδ0 hδ1
  have hπ := Real.pi_pos
  have hπ4 := Real.pi_le_four
  have hpos : (0 : ℝ) < 6371 * radians (1 / 10000) := by
    unfold radians
    nlinarith
  have hself : estimate_travel_minutes 0 0 0 0 = 2 := by
    simp only [estimate_travel_minutes]
    rw [haversine_km_self]
    have hmax : max ((0 : ℝ) / AVERAGE_CITY_SPEED_KMH * 60 * TRAFFIC_MULTIPLIER) 2 = 2 := by
      unfold AVERAGE_CITY_SPEED_KMH TRAFFIC_MULTIPLIER
      norm_num
    rw [hmax, roundR1_two]
  have hsmall : estimate_travel_minutes 0 0 0 (1 / 10000) = 2 := by
    simp only [estimate_travel_minutes]
    rw [heq]
    have hmle : 6371 * radians (1 / 10000) / AVERAGE_CITY_SPEED_KMH * 60 * TRAFFIC_MULTIPLIER
        ≤ 2 := by
      unfold radians AVERAGE_CITY_SPEED_KMH TRAFFIC_MULTIPLIER
      nlinarith
    rw [max_eq_right hmle, roundR1_two]
  refine ⟨?_, hself, hsmall, ?_⟩
  · rw [haversine_km_self, heq]
    exact hpos
  · rw [hself, hsmall]
    exact lt_irrefl 2

/-- C8's witness inputs for the amended theorem. -/
theorem estimate_travel_minutes_floor_and_monotone_witness :
    estimate_travel_minutes 5 7 5 7 = 2 ∧
    estimate_travel_minutes 0 0 0 0 ≤ estimate_travel_minutes 0 0 0 1 :=
  ⟨estimate_travel_minutes_floor_and_monotone.1 5 7,
   estimate_travel_minutes_floor_and_monotone.2 0 0 0 0 0 0 0 1 (by
     rw [haversine_km_self, haversine_km_equator (by norm_num) (by norm_num)]
     have hπ := Real.pi_pos
     unfold radians
     nlinarith)⟩

/-! ## Concrete instances: counterexamples and witnesses for the engine -/

/-- A constant travel estimator. -/
def constEst (q : ℚ) : Location → Location → ℚ := fun _ _ => q

/-- A morning event, 10:00–10:30 of day zero, id "A". -/
def evA : SalesEvent := ⟨"A", 600, 630, 0, 0⟩

/-- An earlier event, 9:00–9:30 of day zero, id "B". -/
def evB : SalesEvent := ⟨"B", 540, 570, 1, 1⟩

/-- A malformed event whose end precedes its start. -/
def evBad : SalesEvent := ⟨"X", 600, 500, 0, 0⟩

/-- The new event's location used in the concrete runs. -/
def newLoc : Location := ⟨0, 0⟩

/-- The first accepted candidate of the sorted-input concrete run. -/
def sampleSlot : RecommendationResult := suggestionFor (constEst 2) [evB, evA] newLoc 480 510

/-- An always-failing routing provider. -/
def failProv : GeoPoint → GeoPoint → Except RoutingError ℚ :=
  fun _ _ => Except.error (RoutingError.routingError "no route")

/-- A constant fallback routing provider. -/
def okFallback : GeoPoint → GeoPoint → Except RoutingError ℚ := fun _ _ => Except.ok 7

/-- A trivial geocoding provider. -/
def geoProv : String → Except LocationError GeoPoint := fun _ => Except.ok ⟨0, 0⟩

/-- A service with a failing primary and no fallback. -/
def svcNoFb : LocationService := ⟨geoProv, failProv, none⟩

/-- A service with a failing primary and a haversine-like fallback. -/
def svcFb : LocationService := ⟨geoProv, failProv, some okFallback⟩

/-- A geocoding provider that always succeeds. -/
def geoProviderOk : String → Except LocationError GeoPoint := fun _ => Except.ok ⟨1, 2⟩

/-- A geocoding provider that always fails. -/
def geoProviderBad : String → Except LocationError GeoPoint :=
  fun _ => Except.error (LocationError.geocodingError "boom")

/-- A one-entry geocode cache. -/
def cacheSample : List (String × GeoPoint) := [("11 rue", ⟨3, 4⟩)]

section ConcreteRuns

attribute [local semireducible] Rat.add Rat.sub Rat.mul Rat.inv Rat.ofScientific

/-- C1's counterexample: with the unsorted input `[A, B]` (starts 10:00 and
9:00), the accepted slot `[8:00, 8:30)` records next neighbor "A" — the first
qualifying event in *input* order — while the spec's ascending-start rule
names "B". -/
theorem recommend_slots_neighbor_choice_cex :
    ((recommend_slots (constEst 2) 480 1140 [evA, evB] newLoc 30 0).head?.map
      fun r => (r.start_at, r.end_at, r.after_event_id)) = some (480, 510, some "A") ∧
    (spec_next_neighbor [evA, evB] 510).map SalesEvent.id = some "B" ∧
    (some "A" : Option String) ≠ some "B" := by
  refine ⟨by decide, by decide, by decide⟩

/-- C1's witness: on the sorted input `[B, A]` the recorded neighbors agree
with the spec's sorted-order rule. -/
theorem recommend_slots_neighbor_choice_witness :
    sampleSlot.before_event_id =
      (spec_previous_neighbor [evB, evA] sampleSlot.start_at).map SalesEvent.id ∧
    sampleSlot.after_event_id =
      (spec_next_neighbor [evB, evA] sampleSlot.end_at).map SalesEvent.id :=
  (recommend_slots_neighbor_choice (constEst 2) 480 1140 [evB, evA] newLoc 30 0
    sampleSlot (by decide)).2 (by decide)

/-- C2's witness: the scoring identities at the first concrete candidate. -/
theorem recommend_slots_travel_scoring_witness :
    sampleSlot.added_travel_min =
      max (prev_to_new (constEst 2) [evB, evA] newLoc sampleSlot.start_at sampleSlot.end_at +
        new_to_next (constEst 2) [evB, evA] newLoc sampleSlot.start_at sampleSlot.end_at -
        prev_to_next (constEst 2) [evB, evA] sampleSlot.start_at sampleSlot.end_at) 0 ∧
    sampleSlot.total_travel_min =
      prev_to_new (constEst 2) [evB, evA] newLoc sampleSlot.start_at sampleSlot.end_at +
        new_to_next (constEst 2) [evB, evA] newLoc sampleSlot.start_at sampleSlot.end_at ∧
    0 ≤ sampleSlot.added_travel_min ∧
    sampleSlot.added_travel_min ≤ sampleSlot.total_travel_min :=
  recommend_slots_travel_scoring (constEst 2)
    (fun _ _ => ⟨20, by norm_num, by norm_num [constEst]⟩)
    480 1140 [evB, evA] newLoc 30 0 sampleSlot (by decide)

/-- C3's counterexample: a malformed event (end before start) produces two
overlapping windows. -/
theorem build_candidate_windows_cex :
    build_candidate_windows 480 1140 [evBad] = [⟨480, 600⟩, ⟨500, 1140⟩] ∧
    ¬ List.Pairwise
      (fun a b : CandidateWindow => a.«end» ≤ b.start ∨ b.«end» ≤ a.start)
      (build_candidate_windows 480 1140 [evBad]) := by
  refine ⟨by decide, by decide⟩

/-- C3's witness: the window invariants at a concrete well-formed input. -/
theorem build_candidate_windows_disjoint_witness :
    List.Pairwise (fun a b : CandidateWindow => a.«end» ≤ b.start)
      (build_candidate_windows 480 1140 [evB, evA]) ∧
    ((⟨480, 540⟩ : CandidateWindow).start < (⟨480, 540⟩ : CandidateWindow).«end» ∧
      ¬ ((⟨480, 540⟩ : CandidateWindow).start < evB.end_at ∧
        evB.start_at < (⟨480, 540⟩ : CandidateWindow).«end»)) :=
  ⟨(build_candidate_windows_disjoint 480 1140 [evB, evA] (by decide)).1,
   ⟨((build_candidate_windows_disjoint 480 1140 [evB, evA] (by decide)).2
      ⟨480, 540⟩ (by decide)).1,
    ((build_candidate_windows_disjoint 480 1140 [evB, evA] (by decide)).2
      ⟨480, 540⟩ (by decide)).2 evB (by decide)⟩⟩

/-- C4's witness: the slot geometry at the first concrete candidate. -/
theorem recommend_slots_slot_geometry_witness :
    ∃ w ∈ build_candidate_windows 480 1140 [evB, evA],
      sampleSlot.end_at - sampleSlot.start_at = 30 ∧
      w.start + 0 ≤ sampleSlot.start_at ∧
      sampleSlot.end_at + 0 ≤ w.«end» :=
  recommend_slots_slot_geometry (constEst 2) 480 1140 [evB, evA] newLoc 30 0
    (by norm_num) (by norm_num) sampleSlot (by decide)

/-- C6's witness: the chain at a concrete failing service, with and without a
fallback, and the whole-call failure of the fallible engine. -/
theorem estimate_travel_minutes_two_tier_chain_witness :
    svcNoFb.estimate_travel_minutes ⟨0, 0⟩ ⟨1, 1⟩ =
      Except.error (RoutingError.routingError "no route") ∧
    svcFb.estimate_travel_minutes ⟨0, 0⟩ ⟨1, 1⟩ = okFallback ⟨0, 0⟩ ⟨1, 1⟩ ∧
    recommend_slotsE (fun a b => svcNoFb.estimate_travel_minutes ⟨a.lat, a.lng⟩ ⟨b.lat, b.lng⟩)
      480 1140 [evB, evA] newLoc 30 0 =
      Except.error (RoutingError.routingError "no route") :=
  ⟨((estimate_travel_minutes_two_tier_chain svcNoFb
      (RoutingError.routingError "no route")).1 ⟨0, 0⟩ ⟨1, 1⟩ rfl).1 rfl,
   ((estimate_travel_minutes_two_tier_chain svcFb
      (RoutingError.routingError "no route")).1 ⟨0, 0⟩ ⟨1, 1⟩ rfl).2 okFallback rfl,
   (estimate_travel_minutes_two_tier_chain svcNoFb
      (RoutingError.routingError "no route")).2 480 1140 [evB, evA] newLoc 30 0
      (fun _ _ => rfl) rfl ⟨⟨480, 540⟩, by decide, by decide, Or.inr (by decide)⟩⟩

/-- C7's counterexample: with an empty calendar and `date_start` at 7:00, the
single returned candidate starts at 8:00 (the clipped window start) plus the
buffer, not at `date_start + buffer`. -/
theorem recommend_slots_no_events_cex :
    (recommend_slots (constEst 0) 420 720 [] newLoc 30 0).map RecommendationResult.start_at =
      [480] ∧
    (480 : ℤ) ≠ 420 + 0 := by
  refine ⟨by decide, by decide⟩

/-- C9's witness: a cache hit is provider-independent and returns the cached
point; a provider failure propagates uncached and a retry reaches the
provider. -/
theorem geocode_address_memoization_witness :
    (geocode_address geoProviderBad cacheSample "  11   rue  " =
        Except.ok ((⟨3, 4⟩ : GeoPoint),
          ("11 rue", (⟨3, 4⟩ : GeoPoint)) :: cacheSample.eraseP (fun kv' => kv'.1 == "11 rue")) ∧
      geocode_address geoProviderBad cacheSample "  11   rue  " =
        geocode_address geoProviderOk cacheSample "  11   rue  ") ∧
    (geocode_address geoProviderBad [] "boom street" =
        Except.error (LocationError.geocodingError "boom") ∧
      geocode_address geoProviderOk [] "boom street" =
        Except.ok ((⟨1, 2⟩ : GeoPoint),
          (("boom street", (⟨1, 2⟩ : GeoPoint)) :: ([] : List (String × GeoPoint))).take
            GEOCODE_CACHE_MAXSIZE)) :=
  ⟨(geocode_address_memoization geoProviderBad geoProviderOk cacheSample
      "  11   rue  " "11 rue" (by decide)).1 ("11 rue", ⟨3, 4⟩) (by decide),
   by
     have h := (geocode_address_memoization geoProviderBad geoProviderOk []
       "boom street" "boom street" (by decide)).2.1
       (LocationError.geocodingError "boom") (by decide) rfl
     exact ⟨h.1, h.2 ⟨1, 2⟩ rfl⟩⟩

end ConcreteRuns

end WhatsMyWay
